import Mathlib

/-!
Shallow embedding of `src/src/HMC58X3/HMC58X3.cpp` (HMC5843 / HMC5883L
magnetometer driver).  Machine floats (`float`/`double`) are modelled as
exact rationals, fixed-width C integers as `Int`/`Nat` with explicit
wrapping where a conversion matters, and the I2C transport as

  * an environment `Env` supplying the identification bytes and the
    successive 6-byte data buffers the device would return, and
  * an explicit trace of transport events (`Event`) produced by each
    operation.

The two compile-time chip variants (`ISHMC5843` defined / not defined)
are modelled with a `Bool` flag (`true` = HMC5843, `false` = HMC5883L).
-/

namespace HMC58X3

/-- Event on the I2C transport: a single-register write of one byte, or a
multi-byte read of `count` bytes starting at `reg`. -/
inductive Event where
  | writeReg (reg val : ℕ)
  | readReg (reg count : ℕ)
deriving DecidableEq

/-- Modelled from the spec: register offset of configuration register A.
The register map lives in `HMC58X3.h`, which is not under `src/`; the spec
fixes it as "a fixed single-byte offset per the HMC58X3 family datasheet". -/
def HMC58X3_R_CONFA : ℕ := 0

/-- Modelled from the spec: register offset of configuration register B
(see `HMC58X3_R_CONFA`). -/
def HMC58X3_R_CONFB : ℕ := 1

/-- Modelled from the spec: register offset of the mode register
(see `HMC58X3_R_CONFA`). -/
def HMC58X3_R_MODE : ℕ := 2

/-- Modelled from the spec: register offset of the first data-output
register (X MSB) (see `HMC58X3_R_CONFA`). -/
def HMC58X3_R_XM : ℕ := 3

/-- Modelled from the spec: register offset of the first identification
register (see `HMC58X3_R_CONFA`). -/
def HMC58X3_R_IDA : ℕ := 10

/-- Modelled from the spec: positive self-test bias bit pattern OR'd into
configuration register A's low nibble (datasheet value, from the header
not under `src/`). -/
def HMC_POS_BIAS : ℕ := 1

/-- Modelled from the spec: negative self-test bias bit pattern
(see `HMC_POS_BIAS`). -/
def HMC_NEG_BIAS : ℕ := 2

/-- Device constants that the source pulls from `HMC58X3.h` (not under
`src/`): the self-test tolerance factors `SELF_TEST_LOW_LIMIT` /
`SELF_TEST_HIGH_LIMIT` and the per-axis self-test field strengths, kept
abstract as rational parameters, plus the compile-time chip-variant flag
`ISHMC5843`. -/
structure Consts where
  variant : Bool
  SELF_TEST_LOW_LIMIT : ℚ
  SELF_TEST_HIGH_LIMIT : ℚ
  HMC58X3_X_SELF_TEST_GAUSS : ℚ
  HMC58X3_Y_SELF_TEST_GAUSS : ℚ
  HMC58X3_Z_SELF_TEST_GAUSS : ℚ
deriving DecidableEq

/-- Counts/milli-gauss per gain for the self test bias current: the
`counts_per_milligauss[8]` table of `HMC58X3.cpp`, selected by the
`ISHMC5843` conditional. -/
def counts_per_milligauss (isHMC5843 : Bool) : ℕ → ℤ := fun gain =>
  if isHMC5843 then
    [1620, 1300, 970, 780, 530, 460, 390, 280].getD gain 0
  else
    [1370, 1090, 820, 660, 440, 390, 330, 230].getD gain 0

/-- Calibration state of the driver object: the three per-axis scale
factors and the three per-axis maxima (`float` members, modelled as ℚ). -/
structure HMCState where
  x_scale : ℚ
  y_scale : ℚ
  z_scale : ℚ
  x_max : ℚ
  y_max : ℚ
  z_max : ℚ
deriving DecidableEq

/-- Environment: what the transport would answer.  `id` is the triple of
identification bytes `getID` yields (each a C `char` value), and `bufs k`
is the 6-byte buffer returned by the `k`-th 6-byte data read (`getRaw`),
counted from 0, as a function from byte index to byte value. -/
structure Env where
  id : ℤ × ℤ × ℤ
  bufs : ℕ → ℕ → ℕ

/-- Reassemble a signed 16-bit value from an unsigned 16-bit bit pattern:
the conversion performed by assigning `(rx[0] << 8) | rx[1]` (an `int`)
to an `int16_t`. -/
def toSigned16 (v : ℕ) : ℤ :=
  if v % 65536 < 32768 then (v % 65536 : ℤ) else (v % 65536 : ℤ) - 65536

/-- Big-endian assembly `(hi << 8) | lo` of two transport bytes (each an
`unsigned char`, hence the `% 256`), then conversion to `int16_t`. -/
def assembleBE (hi lo : ℕ) : ℤ :=
  toSigned16 (((hi % 256) <<< 8) ||| (lo % 256))

/-- The pure data part of `HMC58X3::getRaw`: given the 6-byte buffer read
from the data registers, produce `(x, y, z)`.  On the HMC5843
(`variant = true`) bytes 2-3 are Y and 4-5 are Z; on the HMC5883L the Z
registers come before the Y registers. -/
def getRaw (variant : Bool) (b : ℕ → ℕ) : ℤ × ℤ × ℤ :=
  if variant then
    (assembleBE (b 0) (b 1), assembleBE (b 2) (b 3), assembleBE (b 4) (b 5))
  else
    (assembleBE (b 0) (b 1), assembleBE (b 4) (b 5), assembleBE (b 2) (b 3))

/-- The float overload `HMC58X3::getValues(float*,float*,float*)`: raw
components divided by the per-axis scale factors. -/
def getValuesF (variant : Bool) (b : ℕ → ℕ) (s : HMCState) : ℚ × ℚ × ℚ :=
  (((getRaw variant b).1 : ℚ) / s.x_scale,
   ((getRaw variant b).2.1 : ℚ) / s.y_scale,
   ((getRaw variant b).2.2 : ℚ) / s.z_scale)

/-- Truncation toward zero: the C conversion from a floating value to an
integer type. -/
def truncQ (q : ℚ) : ℤ := if 0 ≤ q then ⌊q⌋ else ⌈q⌉

/-- Reduction of an integer to the `int16_t` range (two's complement),
modelling the final narrowing to `int16_t`. -/
def wrap16 (z : ℤ) : ℤ := (z + 32768) % 65536 - 32768

/-- The `int16_t` overload `HMC58X3::getValues(int16_t*,int16_t*,int16_t*)`:
each calibrated float gets `0.5` added and is then converted to `int16_t`
(truncation toward zero). -/
def getValuesI16 (variant : Bool) (b : ℕ → ℕ) (s : HMCState) : ℤ × ℤ × ℤ :=
  (wrap16 (truncQ ((getValuesF variant b s).1 + 1/2)),
   wrap16 (truncQ ((getValuesF variant b s).2.1 + 1/2)),
   wrap16 (truncQ ((getValuesF variant b s).2.2 + 1/2)))

/-- `HMC58X3::setMode`: values above 2 return without writing; otherwise
the mode register is written.  The driver state is never touched. -/
def setMode (s : HMCState) (mode : ℕ) : HMCState × List Event :=
  if mode > 2 then (s, []) else (s, [Event.writeReg HMC58X3_R_MODE mode])

/-- `HMC58X3::setGain`: values above 7 return without writing; otherwise
`gain << 5` is written to configuration register B. -/
def setGain (s : HMCState) (gain : ℕ) : HMCState × List Event :=
  if gain > 7 then (s, []) else (s, [Event.writeReg HMC58X3_R_CONFB (gain <<< 5)])

/-- `HMC58X3::setDOR`: values above 6 return without writing; otherwise
`DOR << 2` is written to configuration register A. -/
def setDOR (s : HMCState) (DOR : ℕ) : HMCState × List Event :=
  if DOR > 6 then (s, []) else (s, [Event.writeReg HMC58X3_R_CONFA (DOR <<< 2)])

/-- Saturation test of the self-test calibration:
`-(1<<12) >= min(xyz[0], min(xyz[1], xyz[2]))`. -/
def satTriple (x y z : ℤ) : Bool := decide (min x (min y z) ≤ -(2 ^ 12))

/-- Whether the `i`-th raw sample of the environment saturates. -/
def satAt (variant : Bool) (env : Env) (i : ℕ) : Bool :=
  satTriple (getRaw variant (env.bufs i)).1 (getRaw variant (env.bufs i)).2.1
    (getRaw variant (env.bufs i)).2.2

/-- Result of one bias-phase sampling loop of
`HMC58X3::calibrate(unsigned char, unsigned int)`: accumulated totals,
index of the next unread buffer, the saturation-free flag (`false` when
the loop broke out on saturation) and the transport events issued. -/
structure LoopOut where
  tot : ℤ × ℤ × ℤ
  next : ℕ
  ok : Bool
  evs : List Event
deriving DecidableEq

/-- One bias-phase loop: `n` iterations of `setMode(1); getRaw(...)`,
accumulating `sign * sample` into the running totals (`sign = 1` for the
positive-bias phase, `-1` for the negative-bias phase), breaking out
early when a sample saturates.  `i` is the index of the next buffer. -/
def biasLoop (variant : Bool) (env : Env) (sign : ℤ) :
    ℕ → ℕ → ℤ × ℤ × ℤ → LoopOut
  | 0, i, t => ⟨t, i, true, []⟩
  | k + 1, i, t =>
    let r := getRaw variant (env.bufs i)
    let t1 := (t.1 + sign * r.1, t.2.1 + sign * r.2.1, t.2.2 + sign * r.2.2)
    if satAt variant env i then
      ⟨t1, i + 1, false, [Event.writeReg HMC58X3_R_MODE 1, Event.readReg HMC58X3_R_XM 6]⟩
    else
      ⟨(biasLoop variant env sign k (i + 1) t1).tot,
       (biasLoop variant env sign k (i + 1) t1).next,
       (biasLoop variant env sign k (i + 1) t1).ok,
       [Event.writeReg HMC58X3_R_MODE 1, Event.readReg HMC58X3_R_XM 6]
         ++ (biasLoop variant env sign k (i + 1) t1).evs⟩

/-- Positive-bias phase of the self-test calibration: starts at buffer 1
(buffer 0 is the discarded first reading) with totals 0. -/
def posPhase (c : Consts) (env : Env) (n : ℕ) : LoopOut :=
  biasLoop c.variant env 1 n 1 (0, 0, 0)

/-- Negative-bias phase: continues from where the positive phase stopped,
subtracting samples from the running totals. -/
def negPhase (c : Consts) (env : Env) (n : ℕ) : LoopOut :=
  biasLoop c.variant env (-1) n (posPhase c env n).next (posPhase c env n).tot

/-- `low_limit = SELF_TEST_LOW_LIMIT*counts_per_milligauss[gain]*2*n_samples`,
a `double` product stored into an `int32_t` (truncation toward zero). -/
def lowLimit (c : Consts) (gain n : ℕ) : ℤ :=
  truncQ (c.SELF_TEST_LOW_LIMIT * (counts_per_milligauss c.variant gain : ℚ) * 2 * (n : ℚ))

/-- `high_limit`, computed like `lowLimit` from `SELF_TEST_HIGH_LIMIT`. -/
def highLimit (c : Consts) (gain n : ℕ) : ℤ :=
  truncQ (c.SELF_TEST_HIGH_LIMIT * (counts_per_milligauss c.variant gain : ℚ) * 2 * (n : ℚ))

/-- The C expression `xyz_total[axis] / n_samples`: the `int32_t` total is
converted to `unsigned int` (reduction mod 2^32) and divided by the
`unsigned int` sample count (truncating unsigned division). -/
def cdiv32 (a : ℤ) (n : ℕ) : ℕ := (a % (4294967296 : ℤ)).toNat / n

/-- Identity check of the self-test calibration:
`('H' == id[0]) && ('4' == id[1]) && ('3' == id[2])`. -/
def idOK (env : Env) : Prop :=
  env.id.1 = 72 ∧ env.id.2.1 = 52 ∧ env.id.2.2 = 51

instance (env : Env) : Decidable (idOK env) :=
  inferInstanceAs (Decidable (env.id.1 = 72 ∧ env.id.2.1 = 52 ∧ env.id.2.2 = 51))

/-- Acceptance condition of the self-test calibration: the saturation-free
flag survived both phases and all three accumulated totals lie within the
limits (`(true==bret) && (low_limit <= xyz_total[k]) && ...`). -/
def stOK (c : Consts) (env : Env) (gain n : ℕ) : Prop :=
  (posPhase c env n).ok = true ∧ (negPhase c env n).ok = true ∧
  lowLimit c gain n ≤ (negPhase c env n).tot.1 ∧
  (negPhase c env n).tot.1 ≤ highLimit c gain n ∧
  lowLimit c gain n ≤ (negPhase c env n).tot.2.1 ∧
  (negPhase c env n).tot.2.1 ≤ highLimit c gain n ∧
  lowLimit c gain n ≤ (negPhase c env n).tot.2.2 ∧
  (negPhase c env n).tot.2.2 ≤ highLimit c gain n

instance (c : Consts) (env : Env) (gain n : ℕ) : Decidable (stOK c env gain n) :=
  inferInstanceAs (Decidable ((posPhase c env n).ok = true ∧ (negPhase c env n).ok = true ∧
    lowLimit c gain n ≤ (negPhase c env n).tot.1 ∧
    (negPhase c env n).tot.1 ≤ highLimit c gain n ∧
    lowLimit c gain n ≤ (negPhase c env n).tot.2.1 ∧
    (negPhase c env n).tot.2.1 ≤ highLimit c gain n ∧
    lowLimit c gain n ≤ (negPhase c env n).tot.2.2 ∧
    (negPhase c env n).tot.2.2 ≤ highLimit c gain n))

/-- Scale factor written to `x_scale` on calibration success:
`(counts_per_milligauss[gain]*(HMC58X3_X_SELF_TEST_GAUSS*2))/(xyz_total[0]/n_samples)`. -/
def scaleX (c : Consts) (env : Env) (gain n : ℕ) : ℚ :=
  (counts_per_milligauss c.variant gain : ℚ) * (c.HMC58X3_X_SELF_TEST_GAUSS * 2)
    / ((cdiv32 (negPhase c env n).tot.1 n : ℕ) : ℚ)

/-- Scale factor written to `y_scale` on calibration success. -/
def scaleY (c : Consts) (env : Env) (gain n : ℕ) : ℚ :=
  (counts_per_milligauss c.variant gain : ℚ) * (c.HMC58X3_Y_SELF_TEST_GAUSS * 2)
    / ((cdiv32 (negPhase c env n).tot.2.1 n : ℕ) : ℚ)

/-- Scale factor written to `z_scale` on calibration success. -/
def scaleZ (c : Consts) (env : Env) (gain n : ℕ) : ℚ :=
  (counts_per_milligauss c.variant gain : ℚ) * (c.HMC58X3_Z_SELF_TEST_GAUSS * 2)
    / ((cdiv32 (negPhase c env n).tot.2.2 n : ℕ) : ℚ)

/-- Transport trace of a self-test calibration run that passed the
parameter and identity checks: identity read, positive-bias configuration,
gain write, first (discarded) single-shot reading, positive-bias loop,
negative-bias configuration, negative-bias loop, and the final restore of
configuration register A to its default `0x010`. -/
def stTrace (c : Consts) (env : Env) (gain n : ℕ) : List Event :=
  [Event.readReg HMC58X3_R_IDA 3,
   Event.writeReg HMC58X3_R_CONFA (0x010 + HMC_POS_BIAS),
   Event.writeReg HMC58X3_R_CONFB (gain <<< 5),
   Event.writeReg HMC58X3_R_MODE 1,
   Event.readReg HMC58X3_R_XM 6]
  ++ (posPhase c env n).evs
  ++ [Event.writeReg HMC58X3_R_CONFA (0x010 + HMC_NEG_BIAS)]
  ++ (negPhase c env n).evs
  ++ [Event.writeReg HMC58X3_R_CONFA 0x010]

/-- `HMC58X3::calibrate(unsigned char gain, unsigned int n_samples)` (the
self-test calibration): returns the `bool` result, the resulting driver
state and the transport trace. -/
def calibrateSelfTest (c : Consts) (env : Env) (s : HMCState) (gain n : ℕ) :
    Bool × HMCState × List Event :=
  if 8 > gain ∧ 0 < n then
    if idOK env then
      if stOK c env gain n then
        (true,
         { s with
            x_scale := scaleX c env gain n,
            y_scale := scaleY c env gain n,
            z_scale := scaleZ c env gain n },
         stTrace c env gain n)
      else
        (false, s, stTrace c env gain n)
    else
      (false, s, [Event.readReg HMC58X3_R_IDA 3])
  else
    (false, s, [])

/-- One iteration block of the simple calibration loop: `setMode(1);`
followed by a calibrated-float reading, tracking per-axis maxima. -/
def simpleLoop (variant : Bool) (env : Env) (s : HMCState) :
    ℕ → ℕ → ℚ × ℚ × ℚ → (ℚ × ℚ × ℚ) × List Event
  | 0, _, m => (m, [])
  | k + 1, i, m =>
    let v := getValuesF variant (env.bufs i) s
    let m1 := (if v.1 > m.1 then v.1 else m.1,
               if v.2.1 > m.2.1 then v.2.1 else m.2.1,
               if v.2.2 > m.2.2 then v.2.2 else m.2.2)
    ((simpleLoop variant env s k (i + 1) m1).1,
     [Event.writeReg HMC58X3_R_MODE 1, Event.readReg HMC58X3_R_XM 6]
       ++ (simpleLoop variant env s k (i + 1) m1).2)

/-- `HMC58X3::calibrate(unsigned char gain)` (the simple max-normalized
calibration): scale factors are set to 1 at entry, ten calibrated
readings are maximized per axis, and the scale factors become
`max / axisMax`. -/
def calibrateSimple (c : Consts) (env : Env) (s : HMCState) (gain : ℕ) :
    HMCState × List Event :=
  let s1 : HMCState := { s with x_scale := 1, y_scale := 1, z_scale := 1 }
  let evGain : List Event :=
    if gain > 7 then [] else [Event.writeReg HMC58X3_R_CONFB (gain <<< 5)]
  let lp := simpleLoop c.variant env s1 10 0 (0, 0, 0)
  let mx := lp.1.1
  let my := lp.1.2.1
  let mz := lp.1.2.2
  let m1 : ℚ := if mx > 0 then mx else 0
  let m2 : ℚ := if my > m1 then my else m1
  let m3 : ℚ := if mz > m2 then mz else m2
  ({ s1 with
      x_max := mx, y_max := my, z_max := mz,
      x_scale := m3 / mx, y_scale := m3 / my, z_scale := m3 / mz },
   [Event.writeReg HMC58X3_R_CONFA (0x010 + HMC_POS_BIAS)] ++ evGain ++ lp.2
     ++ [Event.writeReg HMC58X3_R_CONFA 0x010])

/-- The signed 16-bit big-endian combination of two bytes, stated
arithmetically (the spec-side description used by the `getRaw` claim). -/
def bigEndianS16 (hi lo : ℕ) : ℤ := toSigned16 ((hi % 256) * 256 + lo % 256)

/-- Round to the nearest integer with halves rounded up (the spec-side
rounding description used by the rounded-read claim). -/
def roundHalfUp (q : ℚ) : ℤ := ⌊q + 1/2⌋

/-! ### Concrete fixtures used by witnesses and counterexamples -/

/-- Sample device constants: HMC5883L variant, tolerance factors 0 and 1,
all self-test field strengths 1 (the theorems quantify over `Consts`; a
witness only needs one instance). -/
def tConsts : Consts := ⟨false, 0, 1, 1, 1, 1⟩

/-- Freshly constructed driver state (scales 1, maxima 0). -/
def tState : HMCState := ⟨1, 1, 1, 0, 0, 0⟩

/-- Driver state whose X scale factor is 5. -/
def tStateScale5 : HMCState := ⟨5, 1, 1, 0, 0, 0⟩

/-- Buffers for a clean calibration run: buffer 0 (the discarded reading)
is all zero, buffer 1 yields `(10, 10, 10)` raw, later buffers yield
`(-10, -10, -10)` raw (`0xFFF6` big-endian). -/
def tBufsOK : ℕ → ℕ → ℕ := fun i j =>
  if i = 0 then 0
  else if i = 1 then (if j % 2 = 0 then 0 else 10)
  else (if j % 2 = 0 then 255 else 246)

/-- Buffers whose every non-discarded sample is `(-4096, -4096, -4096)`
(`0xF000` big-endian): every sample saturates. -/
def tBufsSat : ℕ → ℕ → ℕ := fun i j =>
  if i = 0 then 0 else (if j % 2 = 0 then 240 else 0)

/-- One 6-byte buffer whose X bytes give `-8` (`0xFFF8`). -/
def tBufNeg : ℕ → ℕ := fun j => if j = 0 then 255 else if j = 1 then 248 else 0

/-- All-zero 6-byte buffer. -/
def zBuf : ℕ → ℕ := fun _ => 0

/-- Environment reporting the correct identity and clean samples. -/
def tEnvOK : Env := ⟨(72, 52, 51), tBufsOK⟩

/-- Environment reporting the correct identity but saturating samples. -/
def tEnvSat : Env := ⟨(72, 52, 51), tBufsSat⟩

/-- Environment reporting a wrong identity. -/
def tEnvBadId : Env := ⟨(0, 0, 51), tBufsOK⟩

/-! ### Helper lemmas about the bias-phase loop -/

theorem biasLoop_ok_iff (variant : Bool) (env : Env) (sign : ℤ) :
    ∀ (n i : ℕ) (t : ℤ × ℤ × ℤ),
      (biasLoop variant env sign n i t).ok = true ↔
        ∀ k, k < n → satAt variant env (i + k) = false := by
  intro n
  induction n with
  | zero =>
    intro i t
    simp [biasLoop]
  | succ m ih =>
    intro i t
    by_cases hs : satAt variant env i = true
    · simp only [biasLoop, hs, if_true]
      constructor
      · intro h
        exact absurd h (by simp)
      · intro h
        have h0 := h 0 (Nat.succ_pos m)
        rw [Nat.add_zero, hs] at h0
        cases h0
    · have hs' : satAt variant env i = false := by
        cases hsat : satAt variant env i
        · rfl
        · exact absurd hsat hs
      simp only [biasLoop, hs', Bool.false_eq_true, if_false]
      rw [ih]
      constructor
      · intro h k hk
        cases k with
        | zero =>
          simpa using hs'
        | succ j =>
          have hj : i + (j + 1) = (i + 1) + j := by omega
          rw [hj]
          exact h j (by omega)
      · intro h k hk
        have hk' : (i + 1) + k = i + (k + 1) := by omega
        rw [hk']
        exact h (k + 1) (by omega)

theorem biasLoop_break (variant : Bool) (env : Env) (sign : ℤ) :
    ∀ (n i : ℕ) (t : ℤ × ℤ × ℤ),
      (biasLoop variant env sign n i t).ok = false →
        ∃ k, k < n ∧ satAt variant env (i + k) = true ∧
          (∀ j, j < k → satAt variant env (i + j) = false) ∧
          (biasLoop variant env sign n i t).next = i + k + 1 := by
  intro n
  induction n with
  | zero =>
    intro i t h
    simp [biasLoop] at h
  | succ m ih =>
    intro i t h
    by_cases hs : satAt variant env i = true
    · refine ⟨0, Nat.succ_pos m, by simpa using hs, fun j hj => absurd hj (Nat.not_lt_zero j), ?_⟩
      simp [biasLoop, hs]
    · have hs' : satAt variant env i = false := by
        cases hsat : satAt variant env i
        · rfl
        · exact absurd hsat hs
      simp only [biasLoop, hs', Bool.false_eq_true, if_false] at h ⊢
      obtain ⟨k, hk, hsat, hprev, hnext⟩ := ih (i + 1) _ h
      refine ⟨k + 1, by omega, ?_, ?_, ?_⟩
      · have he : i + (k + 1) = (i + 1) + k := by omega
        rw [he]
        exact hsat
      · intro j hj
        cases j with
        | zero =>
          simpa using hs'
        | succ j' =>
          have he : i + (j' + 1) = (i + 1) + j' := by omega
          rw [he]
          exact hprev j' (by omega)
      · rw [hnext]
        omega

theorem biasLoop_evs_mem (variant : Bool) (env : Env) (sign : ℤ) :
    ∀ (n i : ℕ) (t : ℤ × ℤ × ℤ) (e : Event),
      e ∈ (biasLoop variant env sign n i t).evs →
        e = Event.writeReg HMC58X3_R_MODE 1 ∨ e = Event.readReg HMC58X3_R_XM 6 := by
  intro n
  induction n with
  | zero =>
    intro i t e h
    simp [biasLoop] at h
  | succ m ih =>
    intro i t e h
    by_cases hs : satAt variant env i = true
    · simp only [biasLoop, hs, if_true] at h
      simpa using h
    · have hs' : satAt variant env i = false := by
        cases hsat : satAt variant env i
        · rfl
        · exact absurd hsat hs
      simp only [biasLoop, hs', Bool.false_eq_true, if_false, List.cons_append,
        List.nil_append, List.mem_cons] at h
      rcases h with h | h | h
      · exact Or.inl h
      · exact Or.inr h
      · exact ih _ _ e h

theorem biasLoop_count_confa (variant : Bool) (env : Env) (sign : ℤ)
    (n i : ℕ) (t : ℤ × ℤ × ℤ) (v : ℕ) :
    ((biasLoop variant env sign n i t).evs).count (Event.writeReg HMC58X3_R_CONFA v) = 0 := by
  rw [List.count_eq_zero]
  intro hmem
  rcases biasLoop_evs_mem variant env sign n i t _ hmem with h | h
  · simp [HMC58X3_R_CONFA, HMC58X3_R_MODE] at h
  · simp at h

theorem stTrace_count_restore (c : Consts) (env : Env) (gain n : ℕ) :
    (stTrace c env gain n).count (Event.writeReg HMC58X3_R_CONFA 0x010) = 1 := by
  unfold stTrace posPhase negPhase
  rw [List.count_append, List.count_append, List.count_append, List.count_append,
      biasLoop_count_confa, biasLoop_count_confa]
  simp [List.count_cons, HMC58X3_R_CONFA, HMC58X3_R_IDA, HMC58X3_R_MODE, HMC58X3_R_XM,
    HMC58X3_R_CONFB, HMC_POS_BIAS, HMC_NEG_BIAS]

theorem simpleLoop_scales (variant : Bool) (env : Env) (s s2 : HMCState)
    (hx : s.x_scale = s2.x_scale) (hy : s.y_scale = s2.y_scale) (hz : s.z_scale = s2.z_scale) :
    ∀ (n i : ℕ) (m : ℚ × ℚ × ℚ),
      simpleLoop variant env s n i m = simpleLoop variant env s2 n i m := by
  intro n
  induction n with
  | zero =>
    intro i m
    rfl
  | succ k ih =>
    intro i m
    simp only [simpleLoop, getValuesF, hx, hy, hz, ih]

theorem assembleBE_eq_bigEndianS16 (hi lo : ℕ) : assembleBE hi lo = bigEndianS16 hi lo := by
  unfold assembleBE bigEndianS16
  congr 1
  have hlt : lo % 256 < 2 ^ 8 := by
    have := Nat.mod_lt lo (show 0 < 256 by norm_num)
    simpa using this
  calc ((hi % 256) <<< 8) ||| (lo % 256)
      = (2 ^ 8 * (hi % 256)) ||| (lo % 256) := by
        rw [Nat.shiftLeft_eq, Nat.mul_comm]
    _ = 2 ^ 8 * (hi % 256) + lo % 256 := (Nat.mul_add_lt_is_or hlt _).symm
    _ = (hi % 256) * 256 + lo % 256 := by ring

/-! ### Claim theorems -/

/-- C5: for every gain above 7 and for `nSamples = 0`, the self-test
calibration returns `false` immediately, performs zero transport
operations (empty event trace) and leaves the driver state unchanged. -/
theorem claim_C5 (c : Consts) (env : Env) (s : HMCState) (gain n : ℕ)
    (h : 8 ≤ gain ∨ n = 0) :
    calibrateSelfTest c env s gain n = (false, s, []) := by
  have hcond : ¬(8 > gain ∧ 0 < n) := by
    rcases h with h | h <;> omega
  unfold calibrateSelfTest
  rw [if_neg hcond]

/-- Witness for C5 at `gain = 8`, `nSamples = 1`. -/
theorem claim_C5_witness :
    calibrateSelfTest tConsts tEnvOK tState 8 1 = (false, tState, []) :=
  claim_C5 tConsts tEnvOK tState 8 1 (Or.inl (le_refl 8))

/-- C6: with valid parameters but identity bytes different from
`{'H','4','3'}`, the self-test calibration returns `false` with only the
identity read on the transport (hence no bias-mode configuration write)
and the driver state unchanged. -/
theorem claim_C6 (c : Consts) (env : Env) (s : HMCState) (gain n : ℕ)
    (hg : gain < 8) (hn : 0 < n) (hid : ¬ idOK env) :
    calibrateSelfTest c env s gain n = (false, s, [Event.readReg HMC58X3_R_IDA 3]) := by
  unfold calibrateSelfTest
  rw [if_pos ⟨hg, hn⟩, if_neg hid]

/-- Witness for C6 at identity bytes `(0, 0, '3')`. -/
theorem claim_C6_witness :
    calibrateSelfTest tConsts tEnvBadId tState 0 1 =
      (false, tState, [Event.readReg HMC58X3_R_IDA 3]) :=
  claim_C6 tConsts tEnvBadId tState 0 1 (by norm_num) (by norm_num) (by decide)

/-- C7: `setMode` with mode above 2, `setGain` with gain above 7 and
`setDOR` with rate above 6 issue no register write and leave the driver
state (in particular the scale factors) unchanged. -/
theorem claim_C7 (s : HMCState) (mode gain rate : ℕ)
    (hm : 2 < mode) (hg : 7 < gain) (hr : 6 < rate) :
    setMode s mode = (s, []) ∧ setGain s gain = (s, []) ∧ setDOR s rate = (s, []) := by
  refine ⟨?_, ?_, ?_⟩ <;> simp [setMode, setGain, setDOR, hm, hg, hr]

/-- Witness for C7 at `mode = 3`, `gain = 8`, `rate = 7`. -/
theorem claim_C7_witness :
    setMode tState 3 = (tState, []) ∧ setGain tState 8 = (tState, []) ∧
      setDOR tState 7 = (tState, []) :=
  claim_C7 tState 3 8 7 (by norm_num) (by norm_num) (by norm_num)

/-- C8: `getRaw` produces X as the signed 16-bit big-endian combination
of bytes 0-1, and assigns the two remaining big-endian values to Y and Z
in the chip-variant order: bytes 2-3 are Y on the HMC5843
(`variant = true`) and Z on the HMC5883L, bytes 4-5 the other way. -/
theorem claim_C8 (variant : Bool) (b : ℕ → ℕ) :
    getRaw variant b =
      (bigEndianS16 (b 0) (b 1),
       if variant then bigEndianS16 (b 2) (b 3) else bigEndianS16 (b 4) (b 5),
       if variant then bigEndianS16 (b 4) (b 5) else bigEndianS16 (b 2) (b 3)) := by
  cases variant <;> simp [getRaw, assembleBE_eq_bigEndianS16]

/-- C1: with valid parameters and a passing identity check, the self-test
calibration returns `true` iff no sample of either bias phase saturated
and each of the three accumulated totals lies within
`[lowLimit, highLimit]` inclusive, the limits being
`SELF_TEST_LOW_LIMIT/HIGH_LIMIT * counts_per_milligauss[gain] * 2 *
nSamples` (stored into an `int32_t`). -/
theorem claim_C1 (c : Consts) (env : Env) (s : HMCState) (gain n : ℕ)
    (hg : gain < 8) (hn : 0 < n) (hid : idOK env) :
    (calibrateSelfTest c env s gain n).1 = true ↔
      ((∀ k, k < n → satAt c.variant env (1 + k) = false) ∧
       (∀ k, k < n → satAt c.variant env ((posPhase c env n).next + k) = false) ∧
       lowLimit c gain n ≤ (negPhase c env n).tot.1 ∧
       (negPhase c env n).tot.1 ≤ highLimit c gain n ∧
       lowLimit c gain n ≤ (negPhase c env n).tot.2.1 ∧
       (negPhase c env n).tot.2.1 ≤ highLimit c gain n ∧
       lowLimit c gain n ≤ (negPhase c env n).tot.2.2 ∧
       (negPhase c env n).tot.2.2 ≤ highLimit c gain n) := by
  have hpos : (posPhase c env n).ok = true ↔
      ∀ k, k < n → satAt c.variant env (1 + k) = false :=
    biasLoop_ok_iff c.variant env 1 n 1 (0, 0, 0)
  have hneg : (negPhase c env n).ok = true ↔
      ∀ k, k < n → satAt c.variant env ((posPhase c env n).next + k) = false :=
    biasLoop_ok_iff c.variant env (-1) n (posPhase c env n).next (posPhase c env n).tot
  unfold calibrateSelfTest
  rw [if_pos ⟨hg, hn⟩, if_pos hid]
  by_cases h3 : stOK c env gain n
  · rw [if_pos h3]
    constructor
    · intro _
      exact ⟨hpos.mp h3.1, hneg.mp h3.2.1, h3.2.2⟩
    · intro _
      rfl
  · rw [if_neg h3]
    constructor
    · intro h
      exact absurd h (by simp)
    · intro hr
      exact absurd ⟨hpos.mpr hr.1, hneg.mpr hr.2.1, hr.2.2⟩ h3

/-- Witness for C1: a clean run with `gain = 0`, `nSamples = 1`. -/
theorem claim_C1_witness :
    (calibrateSelfTest tConsts tEnvOK tState 0 1).1 = true ↔
      ((∀ k, k < 1 → satAt tConsts.variant tEnvOK (1 + k) = false) ∧
       (∀ k, k < 1 → satAt tConsts.variant tEnvOK ((posPhase tConsts tEnvOK 1).next + k) = false) ∧
       lowLimit tConsts 0 1 ≤ (negPhase tConsts tEnvOK 1).tot.1 ∧
       (negPhase tConsts tEnvOK 1).tot.1 ≤ highLimit tConsts 0 1 ∧
       lowLimit tConsts 0 1 ≤ (negPhase tConsts tEnvOK 1).tot.2.1 ∧
       (negPhase tConsts tEnvOK 1).tot.2.1 ≤ highLimit tConsts 0 1 ∧
       lowLimit tConsts 0 1 ≤ (negPhase tConsts tEnvOK 1).tot.2.2 ∧
       (negPhase tConsts tEnvOK 1).tot.2.2 ≤ highLimit tConsts 0 1) :=
  claim_C1 tConsts tEnvOK tState 0 1 (by norm_num) (by norm_num) (by decide)

/-- C2: whenever the self-test calibration succeeds, each axis scale
factor equals `counts_per_milligauss[gain] * (axisSelfTestGauss * 2) /
(axisTotal / nSamples)`, the inner division being the C unsigned 32-bit
division of the accumulated total (positive-bias samples minus
negative-bias samples) by the sample count. -/
theorem claim_C2 (c : Consts) (env : Env) (s : HMCState) (gain n : ℕ)
    (h : (calibrateSelfTest c env s gain n).1 = true) :
    (calibrateSelfTest c env s gain n).2.1.x_scale =
      (counts_per_milligauss c.variant gain : ℚ) * (c.HMC58X3_X_SELF_TEST_GAUSS * 2)
        / ((cdiv32 (negPhase c env n).tot.1 n : ℕ) : ℚ) ∧
    (calibrateSelfTest c env s gain n).2.1.y_scale =
      (counts_per_milligauss c.variant gain : ℚ) * (c.HMC58X3_Y_SELF_TEST_GAUSS * 2)
        / ((cdiv32 (negPhase c env n).tot.2.1 n : ℕ) : ℚ) ∧
    (calibrateSelfTest c env s gain n).2.1.z_scale =
      (counts_per_milligauss c.variant gain : ℚ) * (c.HMC58X3_Z_SELF_TEST_GAUSS * 2)
        / ((cdiv32 (negPhase c env n).tot.2.2 n : ℕ) : ℚ) := by
  unfold calibrateSelfTest at h ⊢
  by_cases h1 : 8 > gain ∧ 0 < n
  case neg =>
    rw [if_neg h1] at h
    exact absurd h (by simp)
  rw [if_pos h1] at h ⊢
  by_cases h2 : idOK env
  case neg =>
    rw [if_neg h2] at h
    exact absurd h (by simp)
  rw [if_pos h2] at h ⊢
  by_cases h3 : stOK c env gain n
  case neg =>
    rw [if_neg h3] at h
    exact absurd h (by simp)
  rw [if_pos h3]
  exact ⟨rfl, rfl, rfl⟩

/-- Witness for C2: the clean run of the C1 witness succeeds and its
scale factors match the formula. -/
theorem claim_C2_witness :
    (calibrateSelfTest tConsts tEnvOK tState 0 1).2.1.x_scale =
      (counts_per_milligauss tConsts.variant 0 : ℚ) * (tConsts.HMC58X3_X_SELF_TEST_GAUSS * 2)
        / ((cdiv32 (negPhase tConsts tEnvOK 1).tot.1 1 : ℕ) : ℚ) ∧
    (calibrateSelfTest tConsts tEnvOK tState 0 1).2.1.y_scale =
      (counts_per_milligauss tConsts.variant 0 : ℚ) * (tConsts.HMC58X3_Y_SELF_TEST_GAUSS * 2)
        / ((cdiv32 (negPhase tConsts tEnvOK 1).tot.2.1 1 : ℕ) : ℚ) ∧
    (calibrateSelfTest tConsts tEnvOK tState 0 1).2.1.z_scale =
      (counts_per_milligauss tConsts.variant 0 : ℚ) * (tConsts.HMC58X3_Z_SELF_TEST_GAUSS * 2)
        / ((cdiv32 (negPhase tConsts tEnvOK 1).tot.2.2 1 : ℕ) : ℚ) :=
  claim_C2 tConsts tEnvOK tState 0 1 (by
    have hlow : lowLimit tConsts 0 1 = 0 := by
      norm_num [lowLimit, truncQ, tConsts, counts_per_milligauss]
    have hhigh : highLimit tConsts 0 1 = 2740 := by
      norm_num [highLimit, truncQ, tConsts, counts_per_milligauss]
    have hst : stOK tConsts tEnvOK 0 1 := by
      unfold stOK
      rw [hlow, hhigh]
      exact ⟨by decide, by decide, by decide, by decide, by decide, by decide, by decide, by decide⟩
    unfold calibrateSelfTest
    rw [if_pos (show 8 > 0 ∧ 0 < 1 by norm_num), if_pos (show idOK tEnvOK by decide),
      if_pos hst])

/-- C3: a failed self-test calibration leaves the driver state (in
particular all three scale factors) exactly as before, and a successful
one overwrites all three scale factors (and nothing else); the scale
factors are never partially updated. -/
theorem claim_C3 (c : Consts) (env : Env) (s : HMCState) (gain n : ℕ) :
    ((calibrateSelfTest c env s gain n).1 = false →
      (calibrateSelfTest c env s gain n).2.1 = s) ∧
    ((calibrateSelfTest c env s gain n).1 = true →
      (calibrateSelfTest c env s gain n).2.1 =
        { s with x_scale := scaleX c env gain n, y_scale := scaleY c env gain n,
                 z_scale := scaleZ c env gain n }) := by
  unfold calibrateSelfTest
  by_cases h1 : 8 > gain ∧ 0 < n
  · rw [if_pos h1]
    by_cases h2 : idOK env
    · rw [if_pos h2]
      by_cases h3 : stOK c env gain n
      · rw [if_pos h3]
        exact ⟨fun h => absurd h (by simp), fun _ => rfl⟩
      · rw [if_neg h3]
        exact ⟨fun _ => rfl, fun h => absurd h (by simp)⟩
    · rw [if_neg h2]
      exact ⟨fun _ => rfl, fun h => absurd h (by simp)⟩
  · rw [if_neg h1]
    exact ⟨fun _ => rfl, fun h => absurd h (by simp)⟩

/-- Witness for C3 at a concrete successful run. -/
theorem claim_C3_witness :
    ((calibrateSelfTest tConsts tEnvOK tState 0 1).1 = false →
      (calibrateSelfTest tConsts tEnvOK tState 0 1).2.1 = tState) ∧
    ((calibrateSelfTest tConsts tEnvOK tState 0 1).1 = true →
      (calibrateSelfTest tConsts tEnvOK tState 0 1).2.1 =
        { tState with
            x_scale := scaleX tConsts tEnvOK 0 1,
            y_scale := scaleY tConsts tEnvOK 0 1,
            z_scale := scaleZ tConsts tEnvOK 0 1 }) :=
  claim_C3 tConsts tEnvOK tState 0 1

/-- C4: with valid parameters and a passing identity check, if some
sample of either bias phase saturates (`min(x,y,z) ≤ -4096`) then the
call returns `false` whatever the totals are, the restore-default write
of configuration register A appears exactly once in the trace, the
negative-bias phase still runs (its configuration write is in the
trace), and the saturating phase's loop stopped right at its first
saturating sample. -/
theorem claim_C4 (c : Consts) (env : Env) (s : HMCState) (gain n : ℕ)
    (hg : gain < 8) (hn : 0 < n) (hid : idOK env)
    (hsat : (∃ k, k < n ∧ satAt c.variant env (1 + k) = true) ∨
            (∃ k, k < n ∧ satAt c.variant env ((posPhase c env n).next + k) = true)) :
    (calibrateSelfTest c env s gain n).1 = false ∧
    ((calibrateSelfTest c env s gain n).2.2).count (Event.writeReg HMC58X3_R_CONFA 0x010) = 1 ∧
    Event.writeReg HMC58X3_R_CONFA (0x010 + HMC_NEG_BIAS) ∈ (calibrateSelfTest c env s gain n).2.2 ∧
    ((∃ k, k < n ∧ satAt c.variant env (1 + k) = true) →
      (posPhase c env n).ok = false ∧
      ∃ k, k < n ∧ satAt c.variant env (1 + k) = true ∧
        (∀ j, j < k → satAt c.variant env (1 + j) = false) ∧
        (posPhase c env n).next = 1 + k + 1) ∧
    ((∃ k, k < n ∧ satAt c.variant env ((posPhase c env n).next + k) = true) →
      (negPhase c env n).ok = false ∧
      ∃ k, k < n ∧ satAt c.variant env ((posPhase c env n).next + k) = true ∧
        (∀ j, j < k → satAt c.variant env ((posPhase c env n).next + j) = false) ∧
        (negPhase c env n).next = (posPhase c env n).next + k + 1) := by
  have hposFlag : (∃ k, k < n ∧ satAt c.variant env (1 + k) = true) →
      (posPhase c env n).ok = false := by
    intro ⟨k, hk, hkSat⟩
    cases hok : (posPhase c env n).ok
    · rfl
    · have := (biasLoop_ok_iff c.variant env 1 n 1 (0, 0, 0)).mp hok k hk
      rw [hkSat] at this
      cases this
  have hnegFlag : (∃ k, k < n ∧ satAt c.variant env ((posPhase c env n).next + k) = true) →
      (negPhase c env n).ok = false := by
    intro ⟨k, hk, hkSat⟩
    cases hok : (negPhase c env n).ok
    · rfl
    · have := (biasLoop_ok_iff c.variant env (-1) n (posPhase c env n).next
        (posPhase c env n).tot).mp hok k hk
      rw [hkSat] at this
      cases this
  have hstOK : ¬ stOK c env gain n := by
    intro hok
    unfold stOK at hok
    rcases hsat with hp | hq
    · rw [hposFlag hp] at hok
      simp at hok
    · rw [hnegFlag hq] at hok
      simp at hok
  have htrace : (calibrateSelfTest c env s gain n).2.2 = stTrace c env gain n := by
    unfold calibrateSelfTest
    rw [if_pos ⟨hg, hn⟩, if_pos hid, if_neg hstOK]
  have hres : (calibrateSelfTest c env s gain n).1 = false := by
    unfold calibrateSelfTest
    rw [if_pos ⟨hg, hn⟩, if_pos hid, if_neg hstOK]
  refine ⟨hres, ?_, ?_, ?_, ?_⟩
  · rw [htrace]
    exact stTrace_count_restore c env gain n
  · rw [htrace]
    unfold stTrace
    simp
  · intro hp
    refine ⟨hposFlag hp, ?_⟩
    exact biasLoop_break c.variant env 1 n 1 (0, 0, 0) (hposFlag hp)
  · intro hq
    refine ⟨hnegFlag hq, ?_⟩
    exact biasLoop_break c.variant env (-1) n (posPhase c env n).next
      (posPhase c env n).tot (hnegFlag hq)

/-- Witness for C4: every sample of the saturating environment
saturates, with `gain = 0`, `nSamples = 1`. -/
theorem claim_C4_witness :
    (calibrateSelfTest tConsts tEnvSat tState 0 1).1 = false ∧
    ((calibrateSelfTest tConsts tEnvSat tState 0 1).2.2).count
      (Event.writeReg HMC58X3_R_CONFA 0x010) = 1 ∧
    Event.writeReg HMC58X3_R_CONFA (0x010 + HMC_NEG_BIAS) ∈
      (calibrateSelfTest tConsts tEnvSat tState 0 1).2.2 ∧
    ((∃ k, k < 1 ∧ satAt tConsts.variant tEnvSat (1 + k) = true) →
      (posPhase tConsts tEnvSat 1).ok = false ∧
      ∃ k, k < 1 ∧ satAt tConsts.variant tEnvSat (1 + k) = true ∧
        (∀ j, j < k → satAt tConsts.variant tEnvSat (1 + j) = false) ∧
        (posPhase tConsts tEnvSat 1).next = 1 + k + 1) ∧
    ((∃ k, k < 1 ∧ satAt tConsts.variant tEnvSat ((posPhase tConsts tEnvSat 1).next + k) = true) →
      (negPhase tConsts tEnvSat 1).ok = false ∧
      ∃ k, k < 1 ∧ satAt tConsts.variant tEnvSat ((posPhase tConsts tEnvSat 1).next + k) = true ∧
        (∀ j, j < k → satAt tConsts.variant tEnvSat ((posPhase tConsts tEnvSat 1).next + j) = false) ∧
        (negPhase tConsts tEnvSat 1).next = (posPhase tConsts tEnvSat 1).next + k + 1) :=
  claim_C4 tConsts tEnvSat tState 0 1 (by norm_num) (by norm_num) (by decide)
    (Or.inl ⟨0, by norm_num, by decide⟩)

/-- Counterexample to C9: with X scale factor 5 and raw X value `-8`, the
calibrated value is `-1.6`; the code (adding `0.5`, then truncating
toward zero) yields `-1`, while rounding to the nearest integer with
halves up yields `-2`. -/
theorem claim_C9_counterexample :
    ¬ ((getValuesI16 false tBufNeg tStateScale5).1 =
        wrap16 (roundHalfUp (((getRaw false tBufNeg).1 : ℚ) / tStateScale5.x_scale))) := by
  have hraw : (getRaw false tBufNeg).1 = (-8 : ℤ) := by decide
  have hceil : (⌈((-8 : ℚ) / 5 + 1 / 2)⌉ : ℤ) = -1 := by
    rw [Int.ceil_eq_iff]
    norm_num
  have hfloor : (⌊((-8 : ℚ) / 5 + 1 / 2)⌋ : ℤ) = -2 := by
    rw [Int.floor_eq_iff]
    norm_num
  have hlhs : (getValuesI16 false tBufNeg tStateScale5).1 = -1 := by
    simp only [getValuesI16, getValuesF, hraw, tStateScale5]
    unfold truncQ
    push_cast
    rw [if_neg (by norm_num), hceil]
    norm_num [wrap16]
  have hrhs : wrap16 (roundHalfUp (((getRaw false tBufNeg).1 : ℚ) / tStateScale5.x_scale)) = -2 := by
    rw [hraw]
    unfold roundHalfUp
    push_cast
    rw [show tStateScale5.x_scale = (5 : ℚ) from rfl, hfloor]
    norm_num [wrap16]
  intro h
  rw [hlhs, hrhs] at h
  exact absurd h (by decide)

/-- C9 (amended): per axis, the `int16_t` overload of `getValues` returns
the calibrated value with `0.5` added and then truncated toward zero,
narrowed to signed 16 bits; for a nonnegative calibrated value this
coincides with rounding to the nearest integer with halves rounded up. -/
theorem claim_C9_amended (variant : Bool) (b : ℕ → ℕ) (s : HMCState) :
    (0 ≤ (getValuesF variant b s).1 →
      (getValuesI16 variant b s).1 = wrap16 (roundHalfUp (getValuesF variant b s).1)) ∧
    (0 ≤ (getValuesF variant b s).2.1 →
      (getValuesI16 variant b s).2.1 = wrap16 (roundHalfUp (getValuesF variant b s).2.1)) ∧
    (0 ≤ (getValuesF variant b s).2.2 →
      (getValuesI16 variant b s).2.2 = wrap16 (roundHalfUp (getValuesF variant b s).2.2)) := by
  refine ⟨fun h => ?_, fun h => ?_, fun h => ?_⟩
  · show wrap16 (truncQ ((getValuesF variant b s).1 + 1/2)) =
      wrap16 (roundHalfUp (getValuesF variant b s).1)
    unfold truncQ roundHalfUp
    rw [if_pos (by linarith)]
  · show wrap16 (truncQ ((getValuesF variant b s).2.1 + 1/2)) =
      wrap16 (roundHalfUp (getValuesF variant b s).2.1)
    unfold truncQ roundHalfUp
    rw [if_pos (by linarith)]
  · show wrap16 (truncQ ((getValuesF variant b s).2.2 + 1/2)) =
      wrap16 (roundHalfUp (getValuesF variant b s).2.2)
    unfold truncQ roundHalfUp
    rw [if_pos (by linarith)]

/-- Witness for the amended C9 on an all-zero (hence nonnegative)
reading. -/
theorem claim_C9_witness :
    ((getValuesI16 false zBuf tState).1 =
      wrap16 (roundHalfUp (getValuesF false zBuf tState).1)) ∧
    ((getValuesI16 false zBuf tState).2.1 =
      wrap16 (roundHalfUp (getValuesF false zBuf tState).2.1)) ∧
    ((getValuesI16 false zBuf tState).2.2 =
      wrap16 (roundHalfUp (getValuesF false zBuf tState).2.2)) := by
  have hraw : getRaw false zBuf = (0, 0, 0) := by decide
  have h0 : (0 : ℚ) ≤ (getValuesF false zBuf tState).1 := by
    simp [getValuesF, hraw, tState]
  have h1 : (0 : ℚ) ≤ (getValuesF false zBuf tState).2.1 := by
    simp [getValuesF, hraw, tState]
  have h2 : (0 : ℚ) ≤ (getValuesF false zBuf tState).2.2 := by
    simp [getValuesF, hraw, tState]
  exact ⟨(claim_C9_amended false zBuf tState).1 h0,
    (claim_C9_amended false zBuf tState).2.1 h1,
    (claim_C9_amended false zBuf tState).2.2 h2⟩

/-- C10: the simple calibration sets all three scale factors to 1 at
entry, before any of its ten readings: its whole result (state and
trace) is independent of the incoming scale factors, and with unit
scale factors a calibrated reading is exactly the raw reading. -/
theorem claim_C10 (c : Consts) (env : Env) (s s2 : HMCState) (gain : ℕ) :
    calibrateSimple c env s gain = calibrateSimple c env s2 gain ∧
    (∀ b : ℕ → ℕ,
      getValuesF c.variant b { s with x_scale := 1, y_scale := 1, z_scale := 1 } =
        (((getRaw c.variant b).1 : ℚ), ((getRaw c.variant b).2.1 : ℚ),
         ((getRaw c.variant b).2.2 : ℚ))) := by
  constructor
  · simp only [calibrateSimple]
    rw [simpleLoop_scales c.variant env { s with x_scale := 1, y_scale := 1, z_scale := 1 }
      { s2 with x_scale := 1, y_scale := 1, z_scale := 1 } rfl rfl rfl 10 0 (0, 0, 0)]
  · intro b
    simp [getValuesF]

end HMC58X3
